import Mathlib

/-!
Shallow embedding of the request pipeline, the image generation subsystem and
the sitemap generation of `src/index.ts` (a Hono application).  Strings are
modelled as Lean `String`s, byte buffers as `List Nat`, and the external
collaborators (outbound HTTP fetches, the satori and resvg libraries, the
filesystem listing used by the sitemap, and the static file store) as fields
of a `World` record.  The process-wide mutable `fontsCache` variable is
modelled by explicit state passing.  Requests are modelled at the level the
middlewares see them: every middleware in the source recomputes
`new URL(c.req.url)` from the same request, so a request is a record of the
parsed method, pathname, protocol and host.
-/

namespace PP

/-- The apostrophe character (written via its code point to keep the
development free of tricky character literals). -/
def aposChar : Char := Char.ofNat 39

/-- The double-quote character. -/
def dquoteChar : Char := Char.ofNat 34

/-- The backslash character. -/
def backslashChar : Char := Char.ofNat 92

/-- Model of JavaScript `String#endsWith`. -/
def endsL (s suf : String) : Bool := decide (suf.toList <:+ s.toList)

/-- Drop a suffix of the given length from a string (used to model an
end-anchored regex replacement). -/
def dropSuffixL (s suf : String) : String :=
  String.mk (s.toList.take (s.toList.length - suf.toList.length))

/-- Model of JavaScript `s.replace(/suf$/, rep)` for a literal pattern `suf`:
if `s` ends with `suf`, the final occurrence is replaced by `rep`, otherwise
`s` is returned unchanged. -/
def replaceSuffix (s suf rep : String) : String :=
  if endsL s suf then dropSuffixL s suf ++ rep else s

/-- List-level model of JavaScript `s.replace(/c/g, rep)` for a single
character `c`: every occurrence of `c` is replaced by `rep`. -/
def replaceAllCharList (c : Char) (rep : List Char) : List Char → List Char
  | [] => []
  | ch :: rest => (if ch = c then rep else [ch]) ++ replaceAllCharList c rep rest

/-- String-level global single-character replacement. -/
def replaceAllChar (c : Char) (rep : String) (s : String) : String :=
  String.mk (replaceAllCharList c rep.toList s.toList)

/-- Embedding of `escapeXml` from `src/index.ts`: five chained global
replacements, ampersand first. -/
def escapeXml (str : String) : String :=
  replaceAllChar aposChar "&apos;"
    (replaceAllChar dquoteChar "&quot;"
      (replaceAllChar (Char.ofNat 62) "&gt;"
        (replaceAllChar (Char.ofNat 60) "&lt;"
          (replaceAllChar (Char.ofNat 38) "&amp;" str))))

/-- Spec-side description of XML escaping: each of the five special
characters is mapped to its entity, every other character to itself. -/
def xmlEscChar (c : Char) : String :=
  if c = Char.ofNat 38 then "&amp;"
  else if c = Char.ofNat 60 then "&lt;"
  else if c = Char.ofNat 62 then "&gt;"
  else if c = dquoteChar then "&quot;"
  else if c = aposChar then "&apos;"
  else String.mk [c]

/-- Concatenation of the images of a character-to-list map over a list. -/
def concatMapL (f : Char → List Char) : List Char → List Char
  | [] => []
  | c :: rest => f c ++ concatMapL f rest

/-- Spec-side single-pass XML escaping: every occurrence of any of the five
special characters is replaced by its entity. -/
def escapeXmlSpec (s : String) : String :=
  String.mk (concatMapL (fun c => (xmlEscChar c).toList) s.toList)

/-- ASCII part of the JavaScript regex character class `\s` (sufficient for
stylesheet bodies, which are ASCII). -/
def isJsSpace (c : Char) : Bool :=
  c = ' ' || c = Char.ofNat 9 || c = Char.ofNat 10 || c = Char.ofNat 13 ||
  c = Char.ofNat 11 || c = Char.ofNat 12

/-- Attempt to match the regex `src:\s*url\(([^)]+)\)` at the head of the
character list, returning the capture group. -/
def matchSrcUrlAt : List Char → Option String
  | 's' :: 'r' :: 'c' :: ':' :: rest =>
    match rest.dropWhile isJsSpace with
    | 'u' :: 'r' :: 'l' :: '(' :: rest2 =>
      match rest2.takeWhile (fun c => decide (c ≠ ')')),
            rest2.dropWhile (fun c => decide (c ≠ ')')) with
      | [], _ => none
      | cap, ')' :: _ => some (String.mk cap)
      | _, _ => none
    | _ => none
  | _ => none

/-- Leftmost match of `src:\s*url\(([^)]+)\)` over a character list. -/
def findSrcUrl : List Char → Option String
  | [] => none
  | c :: rest =>
    match matchSrcUrlAt (c :: rest) with
    | some u => some u
    | none => findSrcUrl rest

/-- Embedding of `css.match(/src:\s*url\(([^)]+)\)/)`, returning the first
capture group when the stylesheet body matches. -/
def extractFontUrl (css : String) : Option String := findSrcUrl css.toList

/-- Embedding of the satori `Font` descriptor record built in `loadFonts`. -/
structure Font where
  name : String
  data : List Nat
  weight : Nat
  style : String
deriving DecidableEq, Repr

/-- The external collaborators of the program: network fetch results, the
two rendering libraries, the recursive directory listing with modification
times, and the static asset store. -/
structure World where
  serifCss : Option String
  sansCss : Option String
  fetchBin : String → Option (List Nat)
  satoriRender : List Font → Except String String
  rasterizePng : String → Except String (List Nat)
  store : List (String × String)
  staticFile : String → Option (List Nat × String)

/-- Result of one `loadFonts` call: the returned value (or thrown error),
the cache state after the call, and the number of outbound fetches issued
during the call. -/
structure LoadOut where
  result : Except String (List Font)
  cache : Option (List Font)
  fetches : Nat
deriving Repr

/-- Embedding of `loadFonts` from `src/index.ts`.  On a cache hit it returns
the cached value with no fetch.  On a miss it fetches the two stylesheet
bodies, pattern-matches each for `src: url(...)`, and only when both
binary payload fetches succeed assigns the complete descriptor pair to the
cache in a single step. -/
def loadFonts (w : World) (fontsCache : Option (List Font)) : LoadOut :=
  match fontsCache with
  | some fonts => ⟨.ok fonts, some fonts, 0⟩
  | none =>
    match w.serifCss with
    | none => ⟨.error "fetch failed", none, 1⟩
    | some serifCss =>
      match w.sansCss with
      | none => ⟨.error "fetch failed", none, 2⟩
      | some sansCss =>
        match extractFontUrl serifCss, extractFontUrl sansCss with
        | some serifUrl, some sansUrl =>
          match w.fetchBin serifUrl, w.fetchBin sansUrl with
          | some serifFontData, some sansFontData =>
            ⟨.ok [⟨"Instrument Serif", serifFontData, 400, "normal"⟩,
                  ⟨"Instrument Sans", sansFontData, 500, "normal"⟩],
             some [⟨"Instrument Serif", serifFontData, 400, "normal"⟩,
                   ⟨"Instrument Sans", sansFontData, 500, "normal"⟩], 4⟩
          | _, _ => ⟨.error "fetch failed", none, 4⟩
        | _, _ =>
          ⟨.error "Could not extract font URLs from Google Fonts CSS", none, 2⟩

/-- Result of one `generateOgImage` call. -/
structure GenOut where
  result : Except String (List Nat)
  cache : Option (List Font)
  fetches : Nat
deriving Repr

/-- Embedding of `generateOgImage`: font acquisition, then vector rendering
of the fixed layout tree by satori, then PNG encoding by resvg. -/
def generateOgImage (w : World) (cache : Option (List Font)) : GenOut :=
  match loadFonts w cache with
  | ⟨.error e, c, n⟩ => ⟨.error e, c, n⟩
  | ⟨.ok fonts, c, n⟩ =>
    match w.satoriRender fonts with
    | .error e => ⟨.error e, c, n⟩
    | .ok svg =>
      match w.rasterizePng svg with
      | .error e => ⟨.error e, c, n⟩
      | .ok png => ⟨.ok png, c, n⟩

/-- A response body: either text or binary bytes. -/
inductive Body where
  | text : String → Body
  | bytes : List Nat → Body
deriving DecidableEq, Repr

/-- An HTTP response: status, headers and body. -/
structure Response where
  status : Nat
  headers : List (String × String)
  body : Body
deriving DecidableEq, Repr

/-- Embedding of the `/og.png` route handler: 200 with PNG headers on
success, generic 500 text on any stage failure (the error detail is logged,
never placed in the body). -/
def ogHandler (w : World) (cache : Option (List Font)) :
    Response × Option (List Font) × Nat :=
  match generateOgImage w cache with
  | ⟨.ok png, c, n⟩ =>
    (⟨200, [("Content-Type", "image/png"),
            ("Cache-Control", "public, max-age=86400")], .bytes png⟩, c, n)
  | ⟨.error _, c, n⟩ =>
    (⟨500, [("Content-Type", "text/plain; charset=UTF-8")],
      .text "Internal Server Error"⟩, c, n)

/-- Model of `mtime.toISOString().split("T")[0]`: the prefix of the ISO
timestamp before the first `T`. -/
def lastmodOf (iso : String) : String :=
  String.mk (iso.toList.takeWhile (fun c => decide (c ≠ 'T')))

/-- Embedding of the URL-path derivation in the sitemap handler, applied to
the backslash-normalized file name. -/
def toUrlPath (normalized : String) : String :=
  if normalized = "index.html" then "/"
  else if endsL normalized "/index.html" then
    "/" ++ replaceSuffix normalized "/index.html" "/"
  else "/" ++ replaceSuffix normalized ".html" ""

/-- Spec-side URL-path derivation, following the rules
`index.html` to `/`, `dir/index.html` to `/dir/`, `name.html` to `/name`. -/
def toUrlPathSpec (f : String) : String :=
  if f = "index.html" then "/"
  else if endsL f "/index.html" then "/" ++ dropSuffixL f "index.html"
  else "/" ++ dropSuffixL f ".html"

/-- The fixed text preceding the escaped URL inside one sitemap entry. -/
def locPre : String := "  <url>\n    <loc>"

/-- The fixed text following the escaped URL inside one sitemap entry,
holding the last-modified date, change frequency and priority. -/
def entryTail (mtimeIso urlPath : String) : String :=
  "</loc>\n    <lastmod>" ++ lastmodOf mtimeIso ++
  "</lastmod>\n    <changefreq>monthly</changefreq>\n    <priority>" ++
  (if urlPath = "/" then "1.0" else "0.8") ++ "</priority>\n  </url>"

/-- Embedding of the per-file entry template of the sitemap handler. -/
def sitemapEntry (baseUrl file mtimeIso : String) : String :=
  locPre ++ escapeXml (baseUrl ++ toUrlPath (replaceAllChar backslashChar "/" file)) ++
  entryTail mtimeIso (toUrlPath (replaceAllChar backslashChar "/" file))

/-- Spec-side per-file entry: escaped full URL built from the spec-side path
derivation, priority 1.0 for the root path and 0.8 otherwise, last-modified
date of the file. -/
def sitemapEntrySpec (baseUrl file mtimeIso : String) : String :=
  locPre ++
  escapeXmlSpec (baseUrl ++ toUrlPathSpec (replaceAllChar backslashChar "/" file)) ++
  entryTail mtimeIso (toUrlPathSpec (replaceAllChar backslashChar "/" file))

/-- Model of JavaScript `Array#join("\n")`. -/
def joinNL : List String → String
  | [] => ""
  | [a] => a
  | a :: b :: rest => a ++ "\n" ++ joinNL (b :: rest)

/-- The entries emitted by the sitemap handler: one per `.html` file of the
recursive store listing. -/
def sitemapEntries (baseUrl : String) (store : List (String × String)) :
    List String :=
  (store.filter (fun f => endsL f.1 ".html")).map
    (fun f => sitemapEntry baseUrl f.1 f.2)

/-- The fixed XML prologue of the sitemap document. -/
def SITEMAP_HEAD : String :=
  "<?xml version=\"1.0\" encoding=\"UTF-8\"?>\n<urlset xmlns=\"http://www.sitemaps.org/schemas/sitemap/0.9\">\n"

/-- The sitemap document body as built in the route handler. -/
def sitemapBody (baseUrl : String) (store : List (String × String)) : String :=
  SITEMAP_HEAD ++ joinNL (sitemapEntries baseUrl store) ++ "\n</urlset>"

/-- A parsed incoming request as the middlewares observe it. -/
structure Request where
  method : String
  path : String
  protocol : String
  host : String
deriving DecidableEq, Repr

/-- Embedding of the `/sitemap.xml` route handler with the base URL derived
from the request origin. -/
def sitemapHandler (w : World) (req : Request) : Response :=
  ⟨200, [("Content-Type", "application/xml"),
         ("Cache-Control", "public, max-age=86400")],
   .text (sitemapBody (req.protocol ++ "//" ++ req.host) w.store)⟩

/-- Representative absolute server directory standing for
`import.meta.dir`. -/
def IMPORT_META_DIR : String := "/srv/app"

/-- Embedding of `PUBLIC_DIR = join(import.meta.dir, "public")`. -/
def PUBLIC_DIR : String := IMPORT_META_DIR ++ "/public"

/-- POSIX path separator, standing for `sep` from `path`. -/
def pathSep : String := "/"

/-- Split a character list at every slash (model of `String.splitOn "/"`). -/
def splitSlashList : List Char → List (List Char)
  | [] => [[]]
  | c :: rest =>
    match splitSlashList rest with
    | [] => [[]]
    | seg :: segs => if c = '/' then [] :: seg :: segs else (c :: seg) :: segs

/-- Join path segments with the separator. -/
def joinSlash : List String → String
  | [] => ""
  | [a] => a
  | a :: b :: rest => a ++ "/" ++ joinSlash (b :: rest)

/-- Model of JavaScript `String#startsWith`. -/
def strPrefix (p s : String) : Bool := decide (p.toList <+: s.toList)

/-- Segment normalization of POSIX `path.normalize` on an absolute path:
empty and dot segments vanish, a dot-dot segment pops the accumulator (and
is dropped at the root). -/
def normalizeSegs : List String → List String → List String
  | acc, [] => acc
  | acc, seg :: rest =>
    if seg = "" || seg = "." then normalizeSegs acc rest
    else if seg = ".." then normalizeSegs acc.dropLast rest
    else normalizeSegs (acc ++ [seg]) rest

/-- Model of POSIX `path.join(base, p)` for an absolute `base`: concatenate
with a separator, normalize segments, preserve a trailing slash on a
non-root result. -/
def pathJoin (base p : String) : String :=
  let combined := base ++ "/" ++ p
  let segs := normalizeSegs [] ((splitSlashList combined.toList).map String.mk)
  let core := "/" ++ joinSlash segs
  if endsL combined "/" && !segs.isEmpty then core ++ "/" else core

/-- Embedding of the root canonicalization in the traversal middleware:
`/` becomes `/index.html`. -/
def canonPathname (pathname : String) : String :=
  if pathname = "/" then "/index.html" else pathname

/-- Embedding of the traversal middleware check: the gate passes exactly
when the joined file path starts with the public directory followed by a
separator. -/
def traversalPass (pathname : String) : Bool :=
  strPrefix (PUBLIC_DIR ++ pathSep) (pathJoin PUBLIC_DIR (canonPathname pathname))

/-- Value of an ASCII hexadecimal digit. -/
def hexVal (c : Char) : Option Nat :=
  if '0' ≤ c ∧ c ≤ '9' then some (c.toNat - '0'.toNat)
  else if 'a' ≤ c ∧ c ≤ 'f' then some (c.toNat - 'a'.toNat + 10)
  else if 'A' ≤ c ∧ c ≤ 'F' then some (c.toNat - 'A'.toNat + 10)
  else none

/-- Percent-decoding over a character list (used to state what a traversal
path means after decode; the source itself never decodes). -/
def percentDecodeList : List Char → List Char
  | [] => []
  | '%' :: a :: b :: rest =>
    match hexVal a, hexVal b with
    | some x, some y => Char.ofNat (16 * x + y) :: percentDecodeList rest
    | _, _ => '%' :: percentDecodeList (a :: b :: rest)
  | c :: rest => c :: percentDecodeList rest

/-- Percent-decoding of a string. -/
def percentDecode (s : String) : String := String.mk (percentDecodeList s.toList)

/-- Embedding of `MAX_URI_LENGTH`. -/
def MAX_URI_LENGTH : Nat := 2048

/-- Result of handling one request: response, cache state after the
request, outbound font fetches performed, and whether control reached the
static asset handler. -/
structure HandleOut where
  resp : Response
  cache : Option (List Font)
  fontFetches : Nat
  staticReached : Bool
deriving Repr

/-- The gate chain of `src/index.ts` in registration order (security
headers are applied afterwards by `secureHeadersApply`): method gate, URI
length gate, the two reserved routes, the traversal gate, then the static
asset handler with the 404 fallback. -/
def handleBase (w : World) (req : Request) (cache : Option (List Font)) :
    HandleOut :=
  if ¬ (req.method = "GET" ∨ req.method = "HEAD") then
    ⟨⟨405, [("Allow", "GET, HEAD"), ("Content-Type", "text/plain; charset=UTF-8")],
      .text "Method Not Allowed"⟩, cache, 0, false⟩
  else if req.path.length > MAX_URI_LENGTH then
    ⟨⟨414, [("Content-Type", "text/plain; charset=UTF-8")], .text "URI Too Long"⟩,
     cache, 0, false⟩
  else if req.path = "/og.png" then
    ⟨(ogHandler w cache).1, (ogHandler w cache).2.1, (ogHandler w cache).2.2, false⟩
  else if req.path = "/sitemap.xml" then
    ⟨sitemapHandler w req, cache, 0, false⟩
  else if traversalPass req.path then
    match w.staticFile req.path with
    | some bc => ⟨⟨200, [("Content-Type", bc.2)], .bytes bc.1⟩, cache, 0, true⟩
    | none =>
      ⟨⟨404, [("Content-Type", "text/plain; charset=UTF-8")], .text "Not Found"⟩,
       cache, 0, true⟩
  else
    ⟨⟨403, [("Content-Type", "text/plain; charset=UTF-8")], .text "Forbidden"⟩,
     cache, 0, false⟩

/-- Model of `Headers#set`: remove any pair with the given name, then add
the pair. -/
def setHeader (hs : List (String × String)) (k v : String) :
    List (String × String) :=
  hs.filter (fun h => decide (h.1 ≠ k)) ++ [(k, v)]

/-- Embedding of the `secureHeaders` middleware: after the inner handlers
produce a response, the three configured security headers are set on it. -/
def secureHeadersApply (resp : Response) : Response :=
  { resp with
    headers :=
      setHeader
        (setHeader
          (setHeader resp.headers "X-Content-Type-Options" "nosniff")
          "X-Frame-Options" "DENY")
        "Referrer-Policy" "strict-origin-when-cross-origin" }

/-- The complete pipeline: gate chain wrapped in the security-header
middleware. -/
def handle (w : World) (req : Request) (cache : Option (List Font)) :
    HandleOut :=
  let r := handleBase w req cache
  { r with resp := secureHeadersApply r.resp }

/-- Well-formedness of the font cache: empty, or exactly the serif display
descriptor followed by the sans label descriptor. -/
def cacheWF (c : Option (List Font)) : Prop :=
  c = none ∨
  ∃ d1 d2, c = some [d1, d2] ∧
    d1.name = "Instrument Serif" ∧ d1.weight = 400 ∧ d1.style = "normal" ∧
    d2.name = "Instrument Sans" ∧ d2.weight = 500 ∧ d2.style = "normal"

/-- A string free of the five XML special characters. -/
def noXmlSpecial (s : String) : Bool :=
  s.toList.all (fun c =>
    decide (c ≠ Char.ofNat 38 ∧ c ≠ Char.ofNat 60 ∧ c ≠ Char.ofNat 62 ∧
            c ≠ dquoteChar ∧ c ≠ aposChar))

/-- A world in which every collaborator fails or is empty. -/
def wEmpty : World :=
  ⟨none, none, fun _ => none, fun _ => .error "down", fun _ => .error "down",
   [], fun _ => none⟩

/-- A stylesheet body from which the URL extraction succeeds. -/
def goodCss : String := "font-display: swap; src: url(https://x.example/f.woff2) format to-end"

/-- A world in which every stage of image generation succeeds and the store
holds a single root document. -/
def wOk : World :=
  ⟨some goodCss, some goodCss, fun _ => some [7, 7],
   fun _ => .ok "<svg/>", fun _ => .ok [1, 3, 5],
   [("index.html", "2024-01-02T03:04:05.000Z")], fun _ => none⟩

/-! ### Helper lemmas -/

theorem mem_setHeader_self (hs : List (String × String)) (k v : String) :
    (k, v) ∈ setHeader hs k v := by
  simp [setHeader]

theorem mem_setHeader_of_ne (hs : List (String × String)) (k v k' v' : String)
    (h : (k', v') ∈ hs) (hne : k' ≠ k) : (k', v') ∈ setHeader hs k v := by
  simp only [setHeader, List.mem_append, List.mem_filter]
  exact Or.inl ⟨h, by simpa using hne⟩

theorem secureHeadersApply_status (r : Response) :
    (secureHeadersApply r).status = r.status := rfl

theorem secureHeadersApply_body (r : Response) :
    (secureHeadersApply r).body = r.body := rfl

theorem handle_resp (w : World) (req : Request) (cache : Option (List Font)) :
    (handle w req cache).resp = secureHeadersApply (handleBase w req cache).resp := rfl

theorem handle_cache (w : World) (req : Request) (cache : Option (List Font)) :
    (handle w req cache).cache = (handleBase w req cache).cache := rfl

theorem handle_fontFetches (w : World) (req : Request) (cache : Option (List Font)) :
    (handle w req cache).fontFetches = (handleBase w req cache).fontFetches := rfl

theorem handle_staticReached (w : World) (req : Request) (cache : Option (List Font)) :
    (handle w req cache).staticReached = (handleBase w req cache).staticReached := rfl

theorem ogHandler_status (w : World) (cache : Option (List Font)) :
    (ogHandler w cache).1.status = 200 ∨ (ogHandler w cache).1.status = 500 := by
  unfold ogHandler
  rcases h : generateOgImage w cache with ⟨r, c, n⟩
  cases r <;> simp

theorem loadFonts_hit (w : World) (fonts : List Font) :
    loadFonts w (some fonts) = ⟨.ok fonts, some fonts, 0⟩ := rfl

theorem loadFonts_ok_cache (w : World) (cache : Option (List Font))
    (f : List Font) (h : (loadFonts w cache).result = .ok f) :
    (loadFonts w cache).cache = some f := by
  cases cache with
  | some fonts =>
    rw [loadFonts_hit] at h ⊢
    cases h
    rfl
  | none =>
    unfold loadFonts at h ⊢
    rcases hs : w.serifCss with _ | s1 <;> simp only [hs] at h ⊢
    · simp at h
    rcases ht : w.sansCss with _ | s2 <;> simp only [ht] at h ⊢
    · simp at h
    rcases he1 : extractFontUrl s1 with _ | u1 <;>
      rcases he2 : extractFontUrl s2 with _ | u2 <;> simp only [he1, he2] at h ⊢
    · simp at h
    · simp at h
    · simp at h
    rcases hb1 : w.fetchBin u1 with _ | b1 <;>
      rcases hb2 : w.fetchBin u2 with _ | b2 <;> simp only [hb1, hb2] at h ⊢
    · simp at h
    · simp at h
    · simp at h
    simp only [Except.ok.injEq] at h
    simp [h]

theorem loadFonts_serif_fetch_fail (w : World) (hs : w.serifCss = none) :
    loadFonts w none = ⟨.error "fetch failed", none, 1⟩ := by
  unfold loadFonts
  rw [hs]

theorem loadFonts_sans_fetch_fail (w : World) (s : String)
    (hs : w.serifCss = some s) (ht : w.sansCss = none) :
    loadFonts w none = ⟨.error "fetch failed", none, 2⟩ := by
  unfold loadFonts
  rw [hs, ht]

theorem loadFonts_extract_fail (w : World) (s t : String)
    (hs : w.serifCss = some s) (ht : w.sansCss = some t)
    (hfail : extractFontUrl s = none ∨ extractFontUrl t = none) :
    loadFonts w none =
      ⟨.error "Could not extract font URLs from Google Fonts CSS", none, 2⟩ := by
  unfold loadFonts
  rw [hs, ht]
  dsimp only
  rcases he1 : extractFontUrl s with _ | u1
  · rfl
  rcases he2 : extractFontUrl t with _ | u2
  · rfl
  exfalso
  rcases hfail with h | h
  · rw [he1] at h; cases h
  · rw [he2] at h; cases h

theorem loadFonts_bin_fetch_fail (w : World) (s t u1 u2 : String)
    (hs : w.serifCss = some s) (ht : w.sansCss = some t)
    (he1 : extractFontUrl s = some u1) (he2 : extractFontUrl t = some u2)
    (hb : w.fetchBin u1 = none ∨ w.fetchBin u2 = none) :
    loadFonts w none = ⟨.error "fetch failed", none, 4⟩ := by
  unfold loadFonts
  rw [hs, ht]
  dsimp only
  rw [he1, he2]
  dsimp only
  rcases hb1 : w.fetchBin u1 with _ | b1
  · rfl
  rcases hb2 : w.fetchBin u2 with _ | b2
  · rfl
  exfalso
  rcases hb with h | h
  · rw [hb1] at h; cases h
  · rw [hb2] at h; cases h

theorem loadFonts_success (w : World) (s t u1 u2 : String) (b1 b2 : List Nat)
    (hs : w.serifCss = some s) (ht : w.sansCss = some t)
    (he1 : extractFontUrl s = some u1) (he2 : extractFontUrl t = some u2)
    (hb1 : w.fetchBin u1 = some b1) (hb2 : w.fetchBin u2 = some b2) :
    loadFonts w none =
      ⟨.ok [⟨"Instrument Serif", b1, 400, "normal"⟩,
            ⟨"Instrument Sans", b2, 500, "normal"⟩],
       some [⟨"Instrument Serif", b1, 400, "normal"⟩,
             ⟨"Instrument Sans", b2, 500, "normal"⟩], 4⟩ := by
  unfold loadFonts
  rw [hs, ht]
  dsimp only
  rw [he1, he2]
  dsimp only
  rw [hb1, hb2]

theorem generateOgImage_cache (w : World) (cache : Option (List Font)) :
    (generateOgImage w cache).cache = (loadFonts w cache).cache ∧
    (generateOgImage w cache).fetches = (loadFonts w cache).fetches ∧
    (∀ p, (generateOgImage w cache).result = .ok p →
      ∃ f, (loadFonts w cache).result = .ok f) := by
  unfold generateOgImage
  rcases h : loadFonts w cache with ⟨r, c, n⟩
  cases r with
  | error e => simp
  | ok fonts =>
    rcases hs : w.satoriRender fonts with e | svg <;> simp only [hs]
    · simp
    · rcases hp : w.rasterizePng svg with e2 | png <;> simp only [hp] <;> simp

theorem handle_og_eq (w : World) (cache : Option (List Font))
    (m proto host : String) (hm : m = "GET" ∨ m = "HEAD") :
    handle w ⟨m, "/og.png", proto, host⟩ cache =
      ⟨secureHeadersApply (ogHandler w cache).1, (ogHandler w cache).2.1,
       (ogHandler w cache).2.2, false⟩ := by
  rcases hm with rfl | rfl <;> rfl

theorem replaceAllCharList_append (c : Char) (rep a b : List Char) :
    replaceAllCharList c rep (a ++ b) =
      replaceAllCharList c rep a ++ replaceAllCharList c rep b := by
  induction a with
  | nil => rfl
  | cons x xs ih => simp [replaceAllCharList, ih]

theorem concatMapL_append (f : Char → List Char) (a b : List Char) :
    concatMapL f (a ++ b) = concatMapL f a ++ concatMapL f b := by
  induction a with
  | nil => rfl
  | cons x xs ih => simp [concatMapL, ih]

theorem escChain_single (c : Char) :
    replaceAllCharList aposChar "&apos;".toList
      (replaceAllCharList dquoteChar "&quot;".toList
        (replaceAllCharList (Char.ofNat 62) "&gt;".toList
          (replaceAllCharList (Char.ofNat 60) "&lt;".toList
            (replaceAllCharList (Char.ofNat 38) "&amp;".toList [c])))) =
    (xmlEscChar c).toList := by
  by_cases h1 : c = Char.ofNat 38
  · subst h1; decide
  by_cases h2 : c = Char.ofNat 60
  · subst h2; decide
  by_cases h3 : c = Char.ofNat 62
  · subst h3; decide
  by_cases h4 : c = dquoteChar
  · subst h4; decide
  by_cases h5 : c = aposChar
  · subst h5; decide
  simp [replaceAllCharList, xmlEscChar, h1, h2, h3, h4, h5, String.toList]

theorem escChainList_eq (l : List Char) :
    replaceAllCharList aposChar "&apos;".toList
      (replaceAllCharList dquoteChar "&quot;".toList
        (replaceAllCharList (Char.ofNat 62) "&gt;".toList
          (replaceAllCharList (Char.ofNat 60) "&lt;".toList
            (replaceAllCharList (Char.ofNat 38) "&amp;".toList l)))) =
    concatMapL (fun c => (xmlEscChar c).toList) l := by
  induction l with
  | nil => rfl
  | cons c rest ih =>
    have hsplit : c :: rest = [c] ++ rest := rfl
    rw [hsplit]
    simp only [replaceAllCharList_append]
    rw [escChain_single c, ih]
    rfl

theorem escapeXml_eq_spec (s : String) : escapeXml s = escapeXmlSpec s :=
  congrArg String.mk (escChainList_eq s.toList)

theorem xmlEscChar_no_lt (c : Char) : Char.ofNat 60 ∉ (xmlEscChar c).toList := by
  by_cases h1 : c = Char.ofNat 38
  · subst h1; decide
  by_cases h2 : c = Char.ofNat 60
  · subst h2; decide
  by_cases h3 : c = Char.ofNat 62
  · subst h3; decide
  by_cases h4 : c = dquoteChar
  · subst h4; decide
  by_cases h5 : c = aposChar
  · subst h5; decide
  simp [xmlEscChar, h1, h2, h3, h4, h5, String.toList]
  exact fun hc => h2 hc.symm

theorem concatMapL_esc_no_lt (l : List Char) :
    Char.ofNat 60 ∉ concatMapL (fun c => (xmlEscChar c).toList) l := by
  induction l with
  | nil => simp [concatMapL]
  | cons c rest ih =>
    simp only [concatMapL, List.mem_append]
    rintro (h | h)
    · exact xmlEscChar_no_lt c h
    · exact ih h

theorem concatMapL_esc_clean_id (l : List Char)
    (h : ∀ c ∈ l, c ≠ Char.ofNat 38 ∧ c ≠ Char.ofNat 60 ∧ c ≠ Char.ofNat 62 ∧
      c ≠ dquoteChar ∧ c ≠ aposChar) :
    concatMapL (fun c => (xmlEscChar c).toList) l = l := by
  induction l with
  | nil => rfl
  | cons c rest ih =>
    obtain ⟨h1, h2, h3, h4, h5⟩ := h c (List.mem_cons_self c rest)
    have hxc : (xmlEscChar c).toList = [c] := by
      simp [xmlEscChar, h1, h2, h3, h4, h5, String.toList]
    simp only [concatMapL, hxc]
    rw [ih (fun x hx => h x (List.mem_cons_of_mem c hx))]
    rfl

theorem endsL_iff (s suf : String) : endsL s suf = true ↔ suf.toList <:+ s.toList := by
  simp [endsL]

theorem str_append_empty (s : String) : s ++ "" = s := by
  cases s with
  | mk data =>
    show String.mk (data ++ []) = String.mk data
    rw [List.append_nil]

theorem dropSuffixL_append (d : List Char) (suf : String) :
    dropSuffixL (String.mk (d ++ suf.toList)) suf = String.mk d := by
  unfold dropSuffixL
  show String.mk ((d ++ suf.toList).take ((d ++ suf.toList).length - suf.toList.length))
    = String.mk d
  congr 1
  have hl : (d ++ suf.toList).length - suf.toList.length = d.length := by
    rw [List.length_append]; omega
  rw [hl, List.take_left]

theorem normSep_preserves_html (f : String) (h : endsL f ".html" = true) :
    endsL (replaceAllChar backslashChar "/" f) ".html" = true := by
  rw [endsL_iff] at h ⊢
  obtain ⟨d, hd⟩ := h
  refine ⟨replaceAllCharList backslashChar "/".toList d, ?_⟩
  show replaceAllCharList backslashChar "/".toList d ++ ".html".toList =
    replaceAllCharList backslashChar "/".toList f.toList
  rw [← hd, replaceAllCharList_append]
  congr 1

theorem toUrlPath_eq_spec (n : String) (h : endsL n ".html" = true) :
    toUrlPath n = toUrlPathSpec n := by
  unfold toUrlPath toUrlPathSpec
  by_cases h0 : n = "index.html"
  · subst h0; rfl
  rw [if_neg h0, if_neg h0]
  by_cases h1 : endsL n "/index.html" = true
  · rw [if_pos h1, if_pos h1]
    obtain ⟨d, hd⟩ := (endsL_iff n "/index.html").mp h1
    cases n with
    | mk data =>
      subst hd
      congr 1
      unfold replaceSuffix
      rw [if_pos h1]
      rw [dropSuffixL_append d "/index.html"]
      have hassoc : String.mk (d ++ "/index.html".toList) =
          String.mk ((d ++ ['/']) ++ "index.html".toList) := by
        rw [List.append_assoc]; rfl
      rw [hassoc, dropSuffixL_append (d ++ ['/']) "index.html"]
      rfl
  · rw [if_neg h1, if_neg h1]
    congr 1
    unfold replaceSuffix
    rw [if_pos h]
    exact str_append_empty _

theorem sitemapEntry_eq_spec (baseUrl f mt : String) (h : endsL f ".html" = true) :
    sitemapEntry baseUrl f mt = sitemapEntrySpec baseUrl f mt := by
  unfold sitemapEntry sitemapEntrySpec
  rw [escapeXml_eq_spec,
    toUrlPath_eq_spec (replaceAllChar backslashChar "/" f) (normSep_preserves_html f h)]

theorem append_cons_inj_of_notin (c : Char) :
    ∀ (a1 a2 b1 b2 : List Char), a1 ++ c :: b1 = a2 ++ c :: b2 →
      c ∉ a1 → c ∉ a2 → a1 = a2 := by
  intro a1
  induction a1 with
  | nil =>
    intro a2 b1 b2 h n1 n2
    cases a2 with
    | nil => rfl
    | cons y ys =>
      exfalso
      rw [List.nil_append, List.cons_append] at h
      obtain ⟨hc, -⟩ := List.cons.inj h
      apply n2
      rw [hc]
      exact List.mem_cons_self y ys
  | cons x xs ih =>
    intro a2 b1 b2 h n1 n2
    cases a2 with
    | nil =>
      exfalso
      rw [List.cons_append, List.nil_append] at h
      obtain ⟨hc, -⟩ := List.cons.inj h
      apply n1
      rw [← hc]
      exact List.mem_cons_self x xs
    | cons y ys =>
      rw [List.cons_append, List.cons_append] at h
      obtain ⟨hxy, htail⟩ := List.cons.inj h
      rw [hxy, ih ys b1 b2 htail
        (fun hm => n1 (List.mem_cons_of_mem x hm))
        (fun hm => n2 (List.mem_cons_of_mem y hm))]

theorem escapeXmlSpec_append (a b : String) :
    escapeXmlSpec (a ++ b) = escapeXmlSpec a ++ escapeXmlSpec b := by
  cases a with
  | mk da =>
    cases b with
    | mk db =>
      show String.mk (concatMapL (fun c => (xmlEscChar c).toList) (da ++ db)) =
        String.mk (concatMapL (fun c => (xmlEscChar c).toList) da) ++
        String.mk (concatMapL (fun c => (xmlEscChar c).toList) db)
      rw [concatMapL_append]
      rfl

theorem escapeXmlSpec_clean (s : String) (h : noXmlSpecial s = true) :
    escapeXmlSpec s = s := by
  cases s with
  | mk data =>
    show String.mk (concatMapL (fun c => (xmlEscChar c).toList) data) = String.mk data
    congr 1
    apply concatMapL_esc_clean_id
    intro c hc
    exact of_decide_eq_true (List.all_eq_true.mp h c hc)

theorem lt_notin_escapeXml (s : String) :
    Char.ofNat 60 ∉ (escapeXml s).data := by
  rw [escapeXml_eq_spec]
  exact concatMapL_esc_no_lt s.toList

theorem joinNL_cons (e : String) (es : List String) :
    ∃ t, joinNL (e :: es) = e ++ t := by
  cases es with
  | nil => exact ⟨"", (str_append_empty e).symm⟩
  | cons b rest =>
    refine ⟨"\n" ++ joinNL (b :: rest), ?_⟩
    show (e ++ "\n") ++ joinNL (b :: rest) = e ++ ("\n" ++ joinNL (b :: rest))
    exact String.append_assoc e "\n" (joinNL (b :: rest))

theorem str_append_cancel_left (a b c : String) (h : a ++ b = a ++ c) : b = c := by
  apply String.ext
  have h2 := congrArg String.data h
  rw [String.data_append, String.data_append] at h2
  exact List.append_cancel_left h2

theorem str_append_cancel_right (a b c : String) (h : b ++ a = c ++ a) : b = c := by
  apply String.ext
  have h2 := congrArg String.data h
  rw [String.data_append, String.data_append] at h2
  exact List.append_cancel_right h2

theorem entryTail_head (mt p : String) :
    ∃ r, (entryTail mt p).data = Char.ofNat 60 :: r := by
  unfold entryTail
  simp only [String.data_append, List.append_assoc]
  exact ⟨_, rfl⟩

theorem sitemapBody_base_inj (b1 b2 : String) (store : List (String × String))
    (name mtime : String) (rest : List (String × String))
    (hfilter : store.filter (fun f => endsL f.1 ".html") = (name, mtime) :: rest)
    (hc1 : noXmlSpecial b1 = true) (hc2 : noXmlSpecial b2 = true)
    (hbody : sitemapBody b1 store = sitemapBody b2 store) : b1 = b2 := by
  unfold sitemapBody sitemapEntries at hbody
  rw [hfilter, List.map_cons, List.map_cons] at hbody
  have hentry : ∀ b : String, sitemapEntry b name mtime =
      locPre ++
      escapeXml (b ++ toUrlPath (replaceAllChar backslashChar "/" name)) ++
      entryTail mtime (toUrlPath (replaceAllChar backslashChar "/" name)) :=
    fun b => rfl
  rw [hentry b1, hentry b2] at hbody
  obtain ⟨t1, ht1⟩ := joinNL_cons (locPre ++
    escapeXml (b1 ++ toUrlPath (replaceAllChar backslashChar "/" name)) ++
    entryTail mtime (toUrlPath (replaceAllChar backslashChar "/" name)))
    (List.map (fun f => sitemapEntry b1 f.1 f.2) rest)
  obtain ⟨t2, ht2⟩ := joinNL_cons (locPre ++
    escapeXml (b2 ++ toUrlPath (replaceAllChar backslashChar "/" name)) ++
    entryTail mtime (toUrlPath (replaceAllChar backslashChar "/" name)))
    (List.map (fun f => sitemapEntry b2 f.1 f.2) rest)
  rw [ht1, ht2] at hbody
  obtain ⟨r, hr⟩ :=
    entryTail_head mtime (toUrlPath (replaceAllChar backslashChar "/" name))
  have hl := congrArg String.data hbody
  simp only [String.data_append, List.append_assoc] at hl
  rw [hr] at hl
  simp only [List.cons_append, List.append_assoc] at hl
  have hl2 := List.append_cancel_left (List.append_cancel_left hl)
  have hesc :=
    append_cons_inj_of_notin (Char.ofNat 60) _ _ _ _ hl2
      (lt_notin_escapeXml _) (lt_notin_escapeXml _)
  have hstr := String.ext hesc
  rw [escapeXml_eq_spec, escapeXml_eq_spec, escapeXmlSpec_append,
    escapeXmlSpec_append, escapeXmlSpec_clean b1 hc1,
    escapeXmlSpec_clean b2 hc2] at hstr
  exact str_append_cancel_right _ b1 b2 hstr

theorem handle_sitemap_eq (w : World) (cache : Option (List Font))
    (m proto host : String) (hm : m = "GET" ∨ m = "HEAD") :
    handle w ⟨m, "/sitemap.xml", proto, host⟩ cache =
      ⟨secureHeadersApply (sitemapHandler w ⟨m, "/sitemap.xml", proto, host⟩),
       cache, 0, false⟩ := by
  rcases hm with rfl | rfl <;> rfl

/-! ### Claim theorems -/

/-- C2: every response produced by the pipeline, for every world, request
and cache state (hence across all response classes 200, 403, 404, 405, 414
and 500), carries the headers `X-Content-Type-Options: nosniff`,
`X-Frame-Options: DENY` and
`Referrer-Policy: strict-origin-when-cross-origin`. -/
theorem c2_security_headers_every_response (w : World) (req : Request)
    (cache : Option (List Font)) :
    ("X-Content-Type-Options", "nosniff") ∈ (handle w req cache).resp.headers ∧
    ("X-Frame-Options", "DENY") ∈ (handle w req cache).resp.headers ∧
    ("Referrer-Policy", "strict-origin-when-cross-origin") ∈
      (handle w req cache).resp.headers := by
  rw [handle_resp]
  unfold secureHeadersApply
  refine ⟨?_, ?_, ?_⟩
  · exact mem_setHeader_of_ne _ _ _ _ _
      (mem_setHeader_of_ne _ _ _ _ _ (mem_setHeader_self _ _ _) (by decide))
      (by decide)
  · exact mem_setHeader_of_ne _ _ _ _ _ (mem_setHeader_self _ _ _) (by decide)
  · exact mem_setHeader_self _ _ _

/-- C8: a GET/HEAD request whose path is longer than 2048 characters gets a
414 response with no later gate running (the static handler is not reached
and no font fetch happens), while a path of length exactly 2048 passes the
URI length gate (its response is never 414). -/
theorem c8_uri_length_gate (w : World) (cache : Option (List Font))
    (m p proto host : String) (hm : m = "GET" ∨ m = "HEAD") :
    (p.length > MAX_URI_LENGTH →
      (handle w ⟨m, p, proto, host⟩ cache).resp.status = 414 ∧
      (handle w ⟨m, p, proto, host⟩ cache).staticReached = false ∧
      (handle w ⟨m, p, proto, host⟩ cache).fontFetches = 0) ∧
    (p.length = MAX_URI_LENGTH →
      (handle w ⟨m, p, proto, host⟩ cache).resp.status ≠ 414) := by
  have hmethod : ¬¬ ((⟨m, p, proto, host⟩ : Request).method = "GET" ∨
      (⟨m, p, proto, host⟩ : Request).method = "HEAD") := not_not_intro hm
  constructor
  · intro hlen
    rw [handle_resp, handle_staticReached, handle_fontFetches]
    unfold handleBase
    rw [if_neg hmethod, if_pos hlen]
    exact ⟨rfl, rfl, rfl⟩
  · intro hlen
    rw [handle_resp]
    unfold handleBase
    rw [if_neg hmethod, if_neg (by simp [hlen])]
    rw [secureHeadersApply_status]
    split
    · rcases ogHandler_status w cache with h | h <;> simp [h]
    · split
      · simp [sitemapHandler]
      · split
        · split <;> simp
        · simp

/-- C1 counterexample: the request path `/..%2f..%2fetc/passwd` decodes to
`/../../etc/passwd`, which resolves outside the asset-store root, yet the
pipeline does not return 403: the traversal gate never percent-decodes, so
the request passes the gate and reaches the static asset handler. -/
theorem c1_traversal_gate_percent_counterexample :
    percentDecode "/..%2f..%2fetc/passwd" = "/../../etc/passwd" ∧
    strPrefix (PUBLIC_DIR ++ pathSep)
      (pathJoin PUBLIC_DIR (canonPathname (percentDecode "/..%2f..%2fetc/passwd")))
      = false ∧
    (handle wEmpty ⟨"GET", "/..%2f..%2fetc/passwd", "http:", "example.com"⟩
      none).resp.status = 404 ∧
    (handle wEmpty ⟨"GET", "/..%2f..%2fetc/passwd", "http:", "example.com"⟩
      none).staticReached = true := by
  refine ⟨by decide, by decide, ?_, by decide⟩
  decide

/-- C1 (amended): for every GET/HEAD request within the URI length bound
whose raw pathname — after canonicalizing the root path `/` to
`/index.html`, with no percent-decoding applied anywhere — resolves
against the asset-store root to a path failing the separator-boundary
prefix check, the pipeline returns 403 and the static asset handler is
never reached. -/
theorem c1_traversal_gate_403 (w : World) (cache : Option (List Font))
    (req : Request)
    (hm : req.method = "GET" ∨ req.method = "HEAD")
    (hlen : req.path.length ≤ MAX_URI_LENGTH)
    (hout : ¬ (strPrefix (PUBLIC_DIR ++ pathSep)
      (pathJoin PUBLIC_DIR (canonPathname req.path)) = true)) :
    (handle w req cache).resp.status = 403 ∧
    (handle w req cache).staticReached = false := by
  obtain ⟨m, p, proto, host⟩ := req
  rw [handle_resp, handle_staticReached]
  unfold handleBase
  rw [if_neg (not_not_intro hm)]
  rw [if_neg (by omega : ¬ (⟨m, p, proto, host⟩ : Request).path.length > MAX_URI_LENGTH)]
  by_cases hog : p = "/og.png"
  · subst hog
    exact absurd (show strPrefix (PUBLIC_DIR ++ pathSep)
      (pathJoin PUBLIC_DIR (canonPathname "/og.png")) = true by decide) hout
  rw [if_neg hog]
  by_cases hsm : p = "/sitemap.xml"
  · subst hsm
    exact absurd (show strPrefix (PUBLIC_DIR ++ pathSep)
      (pathJoin PUBLIC_DIR (canonPathname "/sitemap.xml")) = true by decide) hout
  rw [if_neg hsm]
  have hout2 : ¬ (traversalPass (⟨m, p, proto, host⟩ : Request).path = true) := hout
  rw [if_neg hout2]
  exact ⟨rfl, rfl⟩

/-- Witness for C1 (amended) at the raw pathname `/../secret`, which
resolves outside the root. -/
theorem c1_traversal_gate_403_witness :
    (handle wEmpty ⟨"GET", "/../secret", "http:", "h"⟩ none).resp.status = 403 ∧
    (handle wEmpty ⟨"GET", "/../secret", "http:", "h"⟩ none).staticReached
      = false :=
  c1_traversal_gate_403 wEmpty none ⟨"GET", "/../secret", "http:", "h"⟩
    (Or.inl rfl) (by decide) (by decide)

/-- C6: in discovery mode the sitemap handler emits exactly one entry per
`.html` file of the recursive store listing, each entry carrying the
escaped URL built by the spec rules (`index.html` to `/`, `dir/index.html`
to `/dir/`, `name.html` to `/name`), priority 1.0 for the root path and
0.8 otherwise, and the last-modified date of that file. -/
theorem c6_sitemap_discovery_entries (w : World) (req : Request) :
    (sitemapHandler w req).status = 200 ∧
    (sitemapHandler w req).body = .text (SITEMAP_HEAD ++
      joinNL ((w.store.filter (fun f => endsL f.1 ".html")).map
        (fun f => sitemapEntrySpec (req.protocol ++ "//" ++ req.host) f.1 f.2)) ++
      "\n</urlset>") := by
  refine ⟨rfl, ?_⟩
  show Body.text (sitemapBody (req.protocol ++ "//" ++ req.host) w.store) = _
  unfold sitemapBody sitemapEntries
  have hmap : ∀ f ∈ w.store.filter (fun f => endsL f.1 ".html"),
      sitemapEntry (req.protocol ++ "//" ++ req.host) f.1 f.2 =
        sitemapEntrySpec (req.protocol ++ "//" ++ req.host) f.1 f.2 :=
    fun f hf =>
      sitemapEntry_eq_spec _ f.1 f.2 (List.mem_filter.mp hf).2
  rw [List.map_congr_left hmap]

/-- C7: `escapeXml` replaces, for every input string, each occurrence of
any of the five characters ampersand, less-than, greater-than,
double-quote and apostrophe by its XML entity: it agrees everywhere with
the single-pass entity map. -/
theorem c7_escapeXml_entity_escapes_all (s : String) :
    escapeXml s = escapeXmlSpec s :=
  escapeXml_eq_spec s

/-- C3: the font cache is always either empty or holds exactly the two
required descriptors (serif display face, then sans label face); when the
cache becomes non-empty it is by one assignment of the complete pair, made
only after both stylesheet extractions and both binary payload fetches
succeed, together with a successful result. -/
theorem c3_font_cache_pair_invariant (w : World) (c : Option (List Font))
    (h : cacheWF c) :
    cacheWF (loadFonts w c).cache ∧
    (c = none → (loadFonts w c).cache ≠ none →
      ∃ s1 s2 u1 u2 b1 b2,
        w.serifCss = some s1 ∧ w.sansCss = some s2 ∧
        extractFontUrl s1 = some u1 ∧ extractFontUrl s2 = some u2 ∧
        w.fetchBin u1 = some b1 ∧ w.fetchBin u2 = some b2 ∧
        (loadFonts w c).cache =
          some [⟨"Instrument Serif", b1, 400, "normal"⟩,
                ⟨"Instrument Sans", b2, 500, "normal"⟩] ∧
        (loadFonts w c).result =
          .ok [⟨"Instrument Serif", b1, 400, "normal"⟩,
               ⟨"Instrument Sans", b2, 500, "normal"⟩]) := by
  cases c with
  | some fonts =>
    rw [loadFonts_hit]
    exact ⟨h, fun hc => absurd hc (by simp)⟩
  | none =>
    rcases hs : w.serifCss with _ | s1
    · rw [loadFonts_serif_fetch_fail w hs]
      exact ⟨Or.inl rfl, fun _ hc => absurd rfl hc⟩
    rcases ht : w.sansCss with _ | s2
    · rw [loadFonts_sans_fetch_fail w s1 hs ht]
      exact ⟨Or.inl rfl, fun _ hc => absurd rfl hc⟩
    rcases he1 : extractFontUrl s1 with _ | u1
    · rw [loadFonts_extract_fail w s1 s2 hs ht (Or.inl he1)]
      exact ⟨Or.inl rfl, fun _ hc => absurd rfl hc⟩
    rcases he2 : extractFontUrl s2 with _ | u2
    · rw [loadFonts_extract_fail w s1 s2 hs ht (Or.inr he2)]
      exact ⟨Or.inl rfl, fun _ hc => absurd rfl hc⟩
    rcases hb1 : w.fetchBin u1 with _ | b1
    · rw [loadFonts_bin_fetch_fail w s1 s2 u1 u2 hs ht he1 he2 (Or.inl hb1)]
      exact ⟨Or.inl rfl, fun _ hc => absurd rfl hc⟩
    rcases hb2 : w.fetchBin u2 with _ | b2
    · rw [loadFonts_bin_fetch_fail w s1 s2 u1 u2 hs ht he1 he2 (Or.inr hb2)]
      exact ⟨Or.inl rfl, fun _ hc => absurd rfl hc⟩
    rw [loadFonts_success w s1 s2 u1 u2 b1 b2 hs ht he1 he2 hb1 hb2]
    refine ⟨Or.inr ⟨_, _, rfl, rfl, rfl, rfl, rfl, rfl, rfl⟩, fun _ _ => ?_⟩
    refine ⟨s1, s2, u1, u2, b1, b2, ?_, ?_, ?_, ?_, ?_, ?_, rfl, rfl⟩ <;>
      first | exact hs | exact ht | exact he1 | exact he2 | exact hb1 | exact hb2 |
        rfl

/-- Witness for C3 in the all-successful world, starting from the empty
(well-formed) cache. -/
theorem c3_font_cache_pair_invariant_witness :
    cacheWF (loadFonts wOk none).cache :=
  (c3_font_cache_pair_invariant wOk none (Or.inl rfl)).1

/-- C4: when both stylesheet fetches answer but either body fails the
`src: url(...)` pattern match, `loadFonts` fails with the dedicated error
and does not populate the cache, so a subsequent call starts again from
the empty-cache state. -/
theorem c4_pattern_match_failure_leaves_cache_empty (w : World) (s t : String)
    (hs : w.serifCss = some s) (ht : w.sansCss = some t)
    (hfail : extractFontUrl s = none ∨ extractFontUrl t = none) :
    (loadFonts w none).result =
      .error "Could not extract font URLs from Google Fonts CSS" ∧
    (loadFonts w none).cache = none ∧
    (∀ w' : World, loadFonts w' ((loadFonts w none).cache) = loadFonts w' none) := by
  rw [loadFonts_extract_fail w s t hs ht hfail]
  exact ⟨rfl, rfl, fun w' => rfl⟩

/-- Witness for C4: both stylesheet bodies are present but neither matches
the pattern. -/
theorem c4_pattern_match_failure_leaves_cache_empty_witness :
    (loadFonts ⟨some "nope", some "nope", fun _ => none, fun _ => .error "down",
        fun _ => .error "down", [], fun _ => none⟩ none).result =
      .error "Could not extract font URLs from Google Fonts CSS" ∧
    (loadFonts ⟨some "nope", some "nope", fun _ => none, fun _ => .error "down",
        fun _ => .error "down", [], fun _ => none⟩ none).cache = none :=
  ⟨(c4_pattern_match_failure_leaves_cache_empty _ "nope" "nope" rfl rfl
      (Or.inl (by decide))).1,
   (c4_pattern_match_failure_leaves_cache_empty _ "nope" "nope" rfl rfl
      (Or.inl (by decide))).2.1⟩

/-- C5: on a non-empty cache `loadFonts` returns the cached pair with zero
outbound fetches and an unchanged cache; consequently a second `GET
/og.png` after a first one that answered 200 performs zero outbound font
fetches, whatever the worlds. -/
theorem c5_cache_hit_zero_fetches (w w2 : World) (cache : Option (List Font))
    (fonts : List Font) (proto host proto2 host2 : String) :
    loadFonts w (some fonts) = ⟨.ok fonts, some fonts, 0⟩ ∧
    ((handle w ⟨"GET", "/og.png", proto, host⟩ cache).resp.status = 200 →
      (handle w2 ⟨"GET", "/og.png", proto2, host2⟩
        ((handle w ⟨"GET", "/og.png", proto, host⟩ cache).cache)).fontFetches
        = 0) := by
  refine ⟨rfl, fun h200 => ?_⟩
  rw [handle_og_eq w cache "GET" proto host (Or.inl rfl)] at h200 ⊢
  rw [handle_og_eq w2 _ "GET" proto2 host2 (Or.inl rfl)]
  rcases hg : generateOgImage w cache with ⟨r, c, n⟩
  have hcache : (ogHandler w cache).2.1 = c := by
    unfold ogHandler; rw [hg]; cases r <;> rfl
  cases r with
  | error e =>
    exfalso
    unfold ogHandler at h200
    rw [hg] at h200
    simp [secureHeadersApply] at h200
  | ok png =>
    have hok : (generateOgImage w cache).result = .ok png := by rw [hg]
    obtain ⟨f, hf⟩ := (generateOgImage_cache w cache).2.2 png hok
    have hc : c = some f := by
      have h2 := (generateOgImage_cache w cache).1
      rw [hg] at h2
      rw [loadFonts_ok_cache w cache f hf] at h2
      exact h2
    rw [hcache, hc]
    show (ogHandler w2 (some f)).2.2 = 0
    have h1 : (generateOgImage w2 (some f)).fetches = 0 := by
      have := (generateOgImage_cache w2 (some f)).2.1
      rw [loadFonts_hit] at this
      exact this
    unfold ogHandler
    rcases hg2 : generateOgImage w2 (some f) with ⟨r2, c2, n2⟩
    rw [hg2] at h1
    cases r2 <;> simpa using h1

/-- Witness for C5: a successful first request in the all-successful world,
then a second request in the all-failing world still makes no fetch. -/
theorem c5_cache_hit_zero_fetches_witness :
    loadFonts wOk (some []) = ⟨.ok [], some [], 0⟩ ∧
    (handle wEmpty ⟨"GET", "/og.png", "http:", "h"⟩
      ((handle wOk ⟨"GET", "/og.png", "http:", "h"⟩ none).cache)).fontFetches
      = 0 :=
  ⟨(c5_cache_hit_zero_fetches wOk wEmpty none [] "http:" "h" "http:" "h").1,
   (c5_cache_hit_zero_fetches wOk wEmpty none [] "http:" "h" "http:" "h").2
     (by decide)⟩

/-- C9: for a GET or HEAD request to `/og.png`, any failure of image
generation (font acquisition, rendering or encoding) yields a 500 response
whose body is the fixed text `Internal Server Error` carrying no error
detail, and success yields 200 with `Content-Type: image/png` and a
86400-second cache directive. -/
theorem c9_og_route_generic_500 (w : World) (cache : Option (List Font))
    (m proto host : String) (hm : m = "GET" ∨ m = "HEAD") :
    (∀ e, (generateOgImage w cache).result = .error e →
      (handle w ⟨m, "/og.png", proto, host⟩ cache).resp.status = 500 ∧
      (handle w ⟨m, "/og.png", proto, host⟩ cache).resp.body =
        .text "Internal Server Error") ∧
    (∀ png, (generateOgImage w cache).result = .ok png →
      (handle w ⟨m, "/og.png", proto, host⟩ cache).resp.status = 200 ∧
      ("Content-Type", "image/png") ∈
        (handle w ⟨m, "/og.png", proto, host⟩ cache).resp.headers ∧
      ("Cache-Control", "public, max-age=86400") ∈
        (handle w ⟨m, "/og.png", proto, host⟩ cache).resp.headers ∧
      (handle w ⟨m, "/og.png", proto, host⟩ cache).resp.body = .bytes png) := by
  rw [handle_og_eq w cache m proto host hm]
  constructor
  · intro e he
    unfold ogHandler
    rcases hg : generateOgImage w cache with ⟨r, c, n⟩
    rw [hg] at he
    cases r with
    | error e2 => exact ⟨rfl, rfl⟩
    | ok png => simp at he
  · intro png hok
    unfold ogHandler
    rcases hg : generateOgImage w cache with ⟨r, c, n⟩
    rw [hg] at hok
    cases r with
    | error e2 => simp at hok
    | ok png2 =>
      simp only [Except.ok.injEq] at hok
      subst hok
      refine ⟨rfl, ?_, ?_, rfl⟩
      · exact mem_setHeader_of_ne _ _ _ _ _
          (mem_setHeader_of_ne _ _ _ _ _
            (mem_setHeader_of_ne _ _ _ _ _ (by simp) (by decide)) (by decide))
          (by decide)
      · exact mem_setHeader_of_ne _ _ _ _ _
          (mem_setHeader_of_ne _ _ _ _ _
            (mem_setHeader_of_ne _ _ _ _ _ (by simp) (by decide)) (by decide))
          (by decide)

/-- Witness for C9: in the all-successful world the response is 200 with
the PNG content type, the cache directive and the PNG bytes. -/
theorem c9_og_route_generic_500_witness :
    (handle wOk ⟨"GET", "/og.png", "http:", "h"⟩ none).resp.status = 200 ∧
    ("Content-Type", "image/png") ∈
      (handle wOk ⟨"GET", "/og.png", "http:", "h"⟩ none).resp.headers ∧
    ("Cache-Control", "public, max-age=86400") ∈
      (handle wOk ⟨"GET", "/og.png", "http:", "h"⟩ none).resp.headers ∧
    (handle wOk ⟨"GET", "/og.png", "http:", "h"⟩ none).resp.body =
      .bytes [1, 3, 5] :=
  (c9_og_route_generic_500 wOk none "GET" "http:" "h" (Or.inl rfl)).2
    [1, 3, 5] rfl

/-- C10: the sitemap handler derives the base URL of every `loc` element
from the request protocol and host; the base URL is passed through the
same XML escaping as the derived path (they are escaped together), and two
GET requests to `/sitemap.xml` differing only in their host yield
different bodies whenever the store lists at least one `.html` file (for
hosts free of XML special characters). -/
theorem c10_sitemap_base_from_request_host (w : World)
    (cache : Option (List Font)) (m proto h1 h2 name mtime : String)
    (rest : List (String × String))
    (hm : m = "GET" ∨ m = "HEAD")
    (hfilter : w.store.filter (fun f => endsL f.1 ".html") = (name, mtime) :: rest)
    (hb1 : noXmlSpecial (proto ++ "//" ++ h1) = true)
    (hb2 : noXmlSpecial (proto ++ "//" ++ h2) = true)
    (hne : h1 ≠ h2) :
    (handle w ⟨m, "/sitemap.xml", proto, h1⟩ cache).resp.body =
      .text (sitemapBody (proto ++ "//" ++ h1) w.store) ∧
    (∀ b f mt, sitemapEntry b f mt =
      locPre ++ escapeXml (b ++ toUrlPath (replaceAllChar backslashChar "/" f)) ++
      entryTail mt (toUrlPath (replaceAllChar backslashChar "/" f))) ∧
    (handle w ⟨m, "/sitemap.xml", proto, h1⟩ cache).resp.body ≠
      (handle w ⟨m, "/sitemap.xml", proto, h2⟩ cache).resp.body := by
  rw [handle_sitemap_eq w cache m proto h1 hm,
    handle_sitemap_eq w cache m proto h2 hm]
  refine ⟨rfl, fun b f mt => rfl, fun heq => ?_⟩
  have hbodies : sitemapBody (proto ++ "//" ++ h1) w.store =
      sitemapBody (proto ++ "//" ++ h2) w.store := by
    have h3 : Body.text (sitemapBody (proto ++ "//" ++ h1) w.store) =
        Body.text (sitemapBody (proto ++ "//" ++ h2) w.store) := heq
    exact Body.text.inj h3
  have hbase := sitemapBody_base_inj (proto ++ "//" ++ h1) (proto ++ "//" ++ h2)
    w.store name mtime rest hfilter hb1 hb2 hbodies
  exact hne (str_append_cancel_left (proto ++ "//") h1 h2 hbase)

/-- Witness for C10: two hosts over the single-document store produce
provably different sitemap bodies. -/
theorem c10_sitemap_base_from_request_host_witness :
    (handle wOk ⟨"GET", "/sitemap.xml", "http:", "a.example"⟩ none).resp.body =
      .text (sitemapBody ("http:" ++ "//" ++ "a.example") wOk.store) ∧
    (handle wOk ⟨"GET", "/sitemap.xml", "http:", "a.example"⟩ none).resp.body ≠
      (handle wOk ⟨"GET", "/sitemap.xml", "http:", "b.example"⟩ none).resp.body :=
  ⟨(c10_sitemap_base_from_request_host wOk none "GET" "http:" "a.example"
      "b.example" "index.html" "2024-01-02T03:04:05.000Z" [] (Or.inl rfl)
      (by decide) (by decide) (by decide) (by decide)).1,
   (c10_sitemap_base_from_request_host wOk none "GET" "http:" "a.example"
      "b.example" "index.html" "2024-01-02T03:04:05.000Z" [] (Or.inl rfl)
      (by decide) (by decide) (by decide) (by decide)).2.2⟩

/-- Witness for C8 at a 2049-character path (rejected with 414) and a
2048-character path (accepted: not 414). -/
theorem c8_uri_length_gate_witness :
    (handle wEmpty ⟨"GET", String.mk (List.replicate 2049 'a'), "http:", "h"⟩
      none).resp.status = 414 ∧
    (handle wEmpty ⟨"GET", String.mk (List.replicate 2048 'a'), "http:", "h"⟩
      none).resp.status ≠ 414 :=
  ⟨((c8_uri_length_gate wEmpty none "GET" (String.mk (List.replicate 2049 'a'))
      "http:" "h" (Or.inl rfl)).1
      (by rw [show (String.mk (List.replicate 2049 'a')).length = 2049 from
          List.length_replicate 2049 'a']; decide)).1,
   (c8_uri_length_gate wEmpty none "GET" (String.mk (List.replicate 2048 'a'))
      "http:" "h" (Or.inl rfl)).2
      (by rw [show (String.mk (List.replicate 2048 'a')).length = 2048 from
          List.length_replicate 2048 'a']; rfl)⟩

end PP
